import Mathlib

/-!
Verification development for the mw-mcp-server core: a shallow embedding of
the tenant-scoped vector stores, the permission-filtered search pipeline,
the usage gate and the bounded tool-invocation loop, together with theorems
settling the testable properties stated in the specification.

Conventions of the embedding:
* Python lists become Lean `List`s; dictionaries become association lists.
* Machine floats carried by the code (embedding vectors, similarity scores)
  are modelled as rationals; genuinely numeric external routines
  (cosine distance evaluated by pgvector, L2 normalisation done by faiss,
  the native faiss nearest-neighbour search) are abstract function
  parameters, since their numeric output never influences the control
  flow under verification.
* Fallible Python code (raise/except) returns `Except` or pairs a result
  with an `Option` error, mirroring partial mutation where the original
  mutates `self` before raising.
* External collaborators (embedding provider, LLM provider, wiki ACL
  client, JSON argument parser, tool handlers) are function parameters;
  theorems quantify over them.
-/

set_option maxRecDepth 2000

namespace MwMcp

/-! # Definitions -/

/-! ## Vector store (db/vector_store.py)

PostgreSQL + pgvector backed store.  A database table is a list of
`Db.Embedding` rows; `cosine_distance` is an abstract parameter. -/

namespace Db

structure Embedding where
  wiki_id : String
  page_title : String
  section_id : Option String
  ns : Int
  embedding : List ℚ
deriving DecidableEq

/-- Rows inserted by `VectorStore.add_documents`: Python's
`zip(page_titles, section_ids, namespaces, embeddings)` truncates at the
shortest input, as nested `List.zip` does. -/
def VectorStore.newRecords (wiki_id : String) (page_titles : List String)
    (section_ids : List (Option String)) (namespaces : List Int)
    (embeddings : List (List ℚ)) : List Embedding :=
  (page_titles.zip (section_ids.zip (namespaces.zip embeddings))).map
    fun p => { wiki_id := wiki_id, page_title := p.1, section_id := p.2.1,
               ns := p.2.2.1, embedding := p.2.2.2 }

/-- Source `VectorStore.add_documents`: returns the new table plus the reported
insert count (`len(embeddings)`); the empty-embeddings guard returns 0 and
leaves the table untouched. -/
def VectorStore.add_documents (db : List Embedding) (wiki_id : String)
    (page_titles : List String) (section_ids : List (Option String))
    (namespaces : List Int) (embeddings : List (List ℚ)) :
    List Embedding × Nat :=
  if embeddings.isEmpty then (db, 0)
  else (db ++ VectorStore.newRecords wiki_id page_titles section_ids namespaces embeddings,
        embeddings.length)

/-- Source `VectorStore.delete_page`: `DELETE WHERE wiki_id = … AND page_title = …`,
returning the remaining table and the number of deleted rows. -/
def VectorStore.delete_page (db : List Embedding) (wiki_id : String)
    (page_title : String) : List Embedding × Nat :=
  let keep := db.filter fun r => !(r.wiki_id == wiki_id && r.page_title == page_title)
  (keep, db.length - keep.length)

/-- The WHERE clause built by `VectorStore.search`: always keyed on
`wiki_id`; the namespace filter is added only when the Python list is
truthy (non-`None` and non-empty). -/
def VectorStore.searchCond (wiki_id : String)
    (namespace_filter : Option (List Int)) (r : Embedding) : Bool :=
  r.wiki_id == wiki_id &&
    (match namespace_filter with
     | none => true
     | some l => if l.isEmpty then true else decide (r.ns ∈ l))

/-- The rows selected by `VectorStore.search` before projection:
`WHERE … ORDER BY cosine_distance LIMIT k`, with the pgvector distance
operator abstracted as `dist`. -/
def VectorStore.searchSelected (db : List Embedding) (wiki_id : String)
    (dist : List ℚ → List ℚ → ℚ) (query_embedding : List ℚ) (k : Nat)
    (namespace_filter : Option (List Int)) : List Embedding :=
  ((db.filter (VectorStore.searchCond wiki_id namespace_filter)).mergeSort
      (fun a b => decide (dist query_embedding a.embedding ≤ dist query_embedding b.embedding))).take k

/-- Source `VectorStore.search`: projection of the selected rows to
`(page_title, section_id, namespace, score)` with `score = 1 - distance`. -/
def VectorStore.search (db : List Embedding) (wiki_id : String)
    (dist : List ℚ → List ℚ → ℚ) (query_embedding : List ℚ) (k : Nat)
    (namespace_filter : Option (List Int)) :
    List (String × Option String × Int × ℚ) :=
  (VectorStore.searchSelected db wiki_id dist query_embedding k namespace_filter).map
    fun r => (r.page_title, r.section_id, r.ns, 1 - dist query_embedding r.embedding)

/-! ## Rate limiter (db/rate_limiter.py)

Calendar days are modelled as natural day indices; the UTC midnight at
which a quota resets is identified with the index of the following day. -/

structure TokenUsage where
  wiki_id : String
  user_id : Int
  usage_date : Nat
  prompt_tokens : Nat
  completion_tokens : Nat
  total_tokens : Nat
  request_count : Nat
deriving DecidableEq

structure UsageStatus where
  tokens_used : Nat
  tokens_remaining : Nat
  limit : Nat
  requests_today : Nat
  is_limited : Bool
  reset_time : Nat
deriving DecidableEq

/-- The SELECT key of both rate-limiter queries:
`wiki_id == … AND user_id == … AND usage_date == today`. -/
def usageRowMatches (wiki_id : String) (user_id : Int) (day : Nat)
    (r : TokenUsage) : Bool :=
  r.wiki_id == wiki_id && r.user_id == user_id && r.usage_date == day

/-- Source `RateLimiter.check_limit`: read today's row (absence counts as zero),
compute remaining tokens, the limited flag (`used ≥ limit`) and the reset
time (midnight UTC of the next day). -/
def RateLimiter.check_limit (table : List TokenUsage) (daily_limit : Nat)
    (wiki_id : String) (user_id : Int) (today : Nat) : UsageStatus :=
  let usage := table.find? (usageRowMatches wiki_id user_id today)
  let tokens_used := (usage.map (·.total_tokens)).getD 0
  let requests_today := (usage.map (·.request_count)).getD 0
  { tokens_used := tokens_used,
    tokens_remaining := daily_limit - tokens_used,
    limit := daily_limit,
    requests_today := requests_today,
    is_limited := decide (daily_limit ≤ tokens_used),
    reset_time := today + 1 }

/-- Source `RateLimiter.record_usage`: upsert keyed on (wiki, user, today) —
increment the existing daily row or insert a fresh one — then re-read the
status. -/
def RateLimiter.record_usage (table : List TokenUsage) (daily_limit : Nat)
    (wiki_id : String) (user_id : Int) (prompt_tokens completion_tokens : Nat)
    (today : Nat) : List TokenUsage × UsageStatus :=
  let total_tokens := prompt_tokens + completion_tokens
  let table1 :=
    if table.any (usageRowMatches wiki_id user_id today) then
      table.map fun r =>
        if usageRowMatches wiki_id user_id today r then
          { r with
              prompt_tokens := r.prompt_tokens + prompt_tokens,
              completion_tokens := r.completion_tokens + completion_tokens,
              total_tokens := r.total_tokens + total_tokens,
              request_count := r.request_count + 1 }
        else r
    else
      table ++ [{ wiki_id := wiki_id, user_id := user_id, usage_date := today,
                  prompt_tokens := prompt_tokens,
                  completion_tokens := completion_tokens,
                  total_tokens := total_tokens, request_count := 1 }]
  (table1, RateLimiter.check_limit table1 daily_limit wiki_id user_id today)

end Db

/-! ## In-process FAISS index (embeddings/index.py)

`FaissIndex` wraps a native `IndexIDMap2` (modelled as a dimension plus an
id-to-vector list), an id→document map (`doc_map`, a Python dict modelled
as an association list with overwrite-insert) and a monotone id counter.
L2 normalisation is an abstract parameter `norm`, being purely numeric. -/

namespace Embeddings

structure IndexedDocument where
  page_title : String
  section_id : Option String
  text : String
  ns : Int
  last_modified : Option String
deriving DecidableEq

/-- Native `faiss.IndexIDMap2(IndexFlatIP(dim))`. -/
structure FaissNative where
  dim : Nat
  entries : List (Nat × List ℚ)
deriving DecidableEq

inductive FaissError
  | emptyEmbeddingList
  | countMismatch
  | emptyVectors
  | inconsistentDim
  | addFailed
deriving DecidableEq

structure FaissState where
  index : Option FaissNative
  doc_map : List (Nat × IndexedDocument)
  next_id : Nat
deriving DecidableEq

def initialFaissState : FaissState :=
  { index := none, doc_map := [], next_id := 0 }

/-- Python dict assignment `self._doc_map[k] = v`: overwrite when the key
exists, append otherwise. -/
def assocSet (m : List (Nat × IndexedDocument)) (k : Nat)
    (v : IndexedDocument) : List (Nat × IndexedDocument) :=
  if m.any (fun p => p.1 == k) then
    m.map (fun p => if p.1 == k then (k, v) else p)
  else m ++ [(k, v)]

/-- Source `FaissIndex._validate_embeddings`: raises (returns `some` error) on an
empty embedding list, a count mismatch, zero-dimension vectors, or
inconsistent dimensions within the batch. -/
def FaissIndex.validateEmbeddings (embeddings : List (List ℚ))
    (docs : List IndexedDocument) : Option FaissError :=
  if embeddings.isEmpty then some .emptyEmbeddingList
  else if embeddings.length ≠ docs.length then some .countMismatch
  else
    let dim := (embeddings.headD []).length
    if dim = 0 then some .emptyVectors
    else if embeddings.any (fun e => e.length ≠ dim) then some .inconsistentDim
    else none

/-- Native `add_with_ids`: fails when a vector does not match the index
dimension, otherwise appends the (id, vector) pairs. -/
def FaissNative.add_with_ids (idx : FaissNative) (vectors : List (List ℚ))
    (ids : List Nat) : Option FaissNative :=
  if vectors.any (fun v => v.length ≠ idx.dim) then none
  else some { idx with entries := idx.entries ++ ids.zip vectors }

/-- Source `FaissIndex.add_documents`.  Returns the resulting object state, the
raised error if any, and the (id, document) assignments performed.  As in
the source, the empty-`docs` guard returns before any validation; ids are
drawn from `next_id` (`np.arange(next_id, next_id + len(docs))`) and the
counter is bumped *before* the native add, so a native failure still
leaves the counter advanced (ids are burned, never reissued). -/
def FaissIndex.add_documents (norm : List ℚ → List ℚ) (st : FaissState)
    (docs : List IndexedDocument) (embeddings : List (List ℚ)) :
    FaissState × Option FaissError × List (Nat × IndexedDocument) :=
  if docs.isEmpty then (st, none, [])
  else match FaissIndex.validateEmbeddings embeddings docs with
  | some e => (st, some e, [])
  | none =>
    let idx0 := match st.index with
      | none => { dim := (embeddings.headD []).length, entries := [] }
      | some i => i
    let st1 := { st with index := some idx0 }
    let ids := List.range' st1.next_id docs.length
    let st2 := { st1 with next_id := st1.next_id + docs.length }
    let vectors := embeddings.map norm
    match FaissNative.add_with_ids idx0 vectors ids with
    | none => (st2, some .addFailed, [])
    | some idx1 =>
      let assigned := ids.zip docs
      ({ st2 with
          index := some idx1,
          doc_map := assigned.foldl (fun m p => assocSet m p.1 p.2) st2.doc_map },
       none, assigned)

/-- Source `FaissIndex.delete_page`: removes every chunk of the page from the
native index and the doc map; the id counter is untouched. -/
def FaissIndex.delete_page (st : FaissState) (page_title : String) :
    FaissState × Nat :=
  match st.index with
  | none => (st, 0)
  | some idx =>
    let ids_to_remove :=
      (st.doc_map.filter fun p => p.2.page_title == page_title).map (·.1)
    if ids_to_remove.isEmpty then (st, 0)
    else
      let idx1 := { idx with
        entries := idx.entries.filter fun e => !(ids_to_remove.contains e.1) }
      ({ st with
          index := some idx1,
          doc_map := st.doc_map.filter fun p => !(ids_to_remove.contains p.1) },
       ids_to_remove.length)

/-- Source `FaissIndex.rebuild`: reset to the empty store, then `add_documents`. -/
def FaissIndex.rebuild (norm : List ℚ → List ℚ) (_st : FaissState)
    (embeddings : List (List ℚ)) (docs : List IndexedDocument) :
    FaissState × Option FaissError × List (Nat × IndexedDocument) :=
  FaissIndex.add_documents norm initialFaissState docs embeddings

/-- An interleaving of the store's mutating operations. -/
inductive Op
  | add (docs : List IndexedDocument) (embeddings : List (List ℚ))
  | del (page_title : String)

def applyOp (norm : List ℚ → List ℚ) (st : FaissState) :
    Op → FaissState × List (Nat × IndexedDocument)
  | .add docs embs =>
    let r := FaissIndex.add_documents norm st docs embs
    (r.1, r.2.2)
  | .del t => ((FaissIndex.delete_page st t).1, [])

/-- Run a sequence of add/delete operations, collecting the trace of
(id, document) assignments in order. -/
def runOps (norm : List ℚ → List ℚ) (st : FaissState) :
    List Op → FaissState × List (Nat × IndexedDocument)
  | [] => (st, [])
  | op :: rest =>
    let r := applyOp norm st op
    let r2 := runOps norm r.1 rest
    (r2.1, r.2 ++ r2.2)

/-! ### Persistence and tenant registry (embeddings/index.py save/load,
embeddings/registry.py, tenants.py) -/

/-- The state of one file on disk, as seen by `faiss.read_index` /
`json.load`: missing, present but unreadable, or readable content. -/
inductive FileRead (α : Type)
  | absent
  | corrupt
  | ok (a : α)
deriving DecidableEq

structure DiskState where
  indexFile : FileRead FaissNative
  metaFile : FileRead (Nat × List (Nat × IndexedDocument))
deriving DecidableEq

inductive FaissPersistenceError
  | readIndexFailed
  | readMetaFailed
deriving DecidableEq

/-- Source `FaissIndex.load`: a missing index file returns untouched (fresh
store); a corrupt index or metadata file raises
`FaissPersistenceError` — mirroring that the Python method mutates
`self._index` before the metadata read, the state paired with a raised
error reflects what was already assigned. -/
def FaissIndex.load (st : FaissState) (disk : DiskState) :
    FaissState × Option FaissPersistenceError :=
  match disk.indexFile with
  | .absent => (st, none)
  | .corrupt => (st, some .readIndexFailed)
  | .ok idx =>
    let st1 := { st with index := some idx }
    match disk.metaFile with
    | .absent => ({ st1 with doc_map := [], next_id := 0 }, none)
    | .corrupt => (st1, some .readMetaFailed)
    | .ok meta => ({ st1 with next_id := meta.1, doc_map := meta.2 }, none)

/-- Python `str.strip()` on the character list of the id. -/
def stripChars (v : List Char) : List Char :=
  ((v.dropWhile (·.isWhitespace)).reverse.dropWhile (·.isWhitespace)).reverse

/-- Source `tenants.validate_wiki_id`: strip, then match
`^[a-zA-Z0-9_-]{1,64}$` (the later `..`, `/`, `\` checks are subsumed by
the charset). -/
def validate_wiki_id (v : String) : Bool :=
  let t := stripChars v.toList
  decide (1 ≤ t.length) && decide (t.length ≤ 64) &&
    t.all (fun c => c.isAlphanum || c == '_' || c == '-')

/-- The module-level `_index_registry` dict. -/
abbrev Registry := List (String × FaissState)

/-- Source `registry.get_tenant_index`: cached hit, else validate the tenant id,
build a fresh store at the tenant's paths and attempt to load it — with
the source's blanket `except Exception: pass` around `index.load()`, so a
load error is discarded and the store is registered regardless. -/
def get_tenant_index (registry : Registry) (disk : DiskState)
    (wiki_id : String) : Except Unit (Registry × FaissState) :=
  match registry.find? (fun p => p.1 == wiki_id) with
  | some p => .ok (registry, p.2)
  | none =>
    if !validate_wiki_id wiki_id then .error ()
    else
      let loaded := (FaissIndex.load initialFaissState disk).1
      .ok (registry ++ [(wiki_id, loaded)], loaded)

end Embeddings

/-! ## Permission-filtered search pipeline (tools/search_tools.py)

The embedding provider, the native faiss search (`faiss_index.search`,
which tool_vector_search wraps in a try/except) and the wiki ACL client
(`client.check_read_access`) are abstract parameters. -/

namespace Tools

structure UserContext where
  username : String
  wiki_id : String
  user_id : Int
  allowed_namespaces : List Int
deriving DecidableEq

structure ToolSearchResult where
  title : String
  section_id : Option String
  score : ℚ
  text : Option String
deriving DecidableEq

inductive ToolError
  | faissFailed (msg : String)
  | serializeFailed
deriving DecidableEq

/-- Source `filter_by_namespace`: an empty allowed-namespace list denies all
(safe default); otherwise keep exactly the candidates whose namespace is
in the allowed list. -/
def filter_by_namespace (results : List (Embeddings.IndexedDocument × ℚ))
    (allowed_namespaces : List Int) : List (Embeddings.IndexedDocument × ℚ) :=
  if allowed_namespaces.isEmpty then []
  else results.filter fun p => decide (p.1.ns ∈ allowed_namespaces)

/-- Source `validate_page_access`: an empty title batch short-circuits to an
empty map without a network call; otherwise defer to the wiki client. -/
def validate_page_access (titles : List String)
    (check_read_access : List String → Except String (List (String × Bool))) :
    Except String (List (String × Bool)) :=
  if titles.isEmpty then .ok [] else check_read_access titles

/-- Source `access_map.get(title, False)`. -/
def accessGet (access_map : List (String × Bool)) (title : String) : Bool :=
  ((access_map.find? fun p => p.1 == title).map (·.2)).getD false

/-- The `ToolSearchResult(...)` constructor call, including the pydantic
validation that can raise (`title` needs min length 1 and `score ≥ 0`)
and the snippet truncation `doc.text[:400] if doc.text else ""`. -/
def mkToolSearchResult (doc : Embeddings.IndexedDocument) (score : ℚ) :
    Option ToolSearchResult :=
  if doc.page_title == "" || decide (score < 0) then none
  else some { title := doc.page_title, section_id := doc.section_id,
              score := score,
              text := some (if doc.text == "" then ""
                            else String.mk (doc.text.toList.take 400)) }

/-- The final result loop of `tool_vector_search`: walk the candidates in
rank order, skip inaccessible pages, append each serialized result, and
break as soon as `k` results are collected.  A serialization failure
raises. -/
def resultLoop (access_map : List (String × Bool)) (k : Nat) :
    List (Embeddings.IndexedDocument × ℚ) → List ToolSearchResult →
    Except ToolError (List ToolSearchResult)
  | [], acc => .ok acc
  | (doc, score) :: rest, acc =>
    if !accessGet access_map doc.page_title then
      resultLoop access_map k rest acc
    else match mkToolSearchResult doc score with
      | none => .error .serializeFailed
      | some r =>
        let acc1 := acc ++ [r]
        if k ≤ acc1.length then .ok acc1 else resultLoop access_map k rest acc1

/-- Source `tool_vector_search`: embed the query (empty provider output → `[]`),
over-query faiss at `3k` (a faiss failure re-raises), namespace
pre-filter, batch-validate the top `2k` candidates (an ACL failure fails
closed to `[]`), then collect up to `k` accessible results. -/
def tool_vector_search (user : UserContext) (embeddings : List (List ℚ))
    (faissSearch : Nat → Except String (List (Embeddings.IndexedDocument × ℚ)))
    (check_read_access : List String → Except String (List (String × Bool)))
    (k : Nat) : Except ToolError (List ToolSearchResult) :=
  if embeddings.isEmpty then .ok []
  else match faissSearch (k * 3) with
  | .error e => .error (.faissFailed e)
  | .ok raw_results =>
    if raw_results.isEmpty then .ok []
    else if (filter_by_namespace raw_results user.allowed_namespaces).isEmpty then
      .ok []
    else
      match validate_page_access
          (((filter_by_namespace raw_results user.allowed_namespaces).take (k * 2)).map
            fun p => p.1.page_title)
          check_read_access with
      | .error _ => .ok []
      | .ok access_map =>
        resultLoop access_map k
          ((filter_by_namespace raw_results user.allowed_namespaces).take (k * 2)) []

end Tools

/-! ## Chat route: usage gate and tool-invocation loop (api/chat_routes.py)

The LLM provider is a stream of responses indexed by the number of calls
already made; `json.loads` is the abstract `parse`; `dispatch_tool_call`
is the abstract `dispatch`.  JSON payloads appended to the transcript are
serialized by a concrete model of `json.dumps`. -/

namespace Api

inductive Json
  | null
  | bool (b : Bool)
  | num (n : Int)
  | str (s : String)
  | arr (elements : List Json)
  | obj (fields : List (String × Json))

/-- Decimal digits of a natural number (always at least one digit). -/
def natReprChars (n : Nat) : List Char :=
  (if n < 10 then [] else natReprChars (n / 10)) ++
    [Char.ofNat (48 + n % 10)]
decreasing_by exact Nat.div_lt_self (by omega) (by omega)

def intReprChars : Int → List Char
  | .ofNat m => natReprChars m
  | .negSucc m => '-' :: natReprChars (m + 1)

mutual

/-- Source `json.dumps` with the default separators, at the character level. -/
def Json.chars : Json → List Char
  | .null => "null".toList
  | .bool true => "true".toList
  | .bool false => "false".toList
  | .num n => intReprChars n
  | .str s => '"' :: (s.toList ++ ['"'])
  | .arr elements => '[' :: (Json.charsArr elements ++ [']'])
  | .obj fields => '\x7b' :: (Json.charsObj fields ++ ['\x7d'])

def Json.charsArr : List Json → List Char
  | [] => []
  | [x] => Json.chars x
  | x :: xs => Json.chars x ++ (',' :: ' ' :: Json.charsArr xs)

def Json.charsObj : List (String × Json) → List Char
  | [] => []
  | [kv] => '"' :: (kv.1.toList ++ ('"' :: ':' :: ' ' :: Json.chars kv.2))
  | kv :: kvs =>
    '"' :: (kv.1.toList ++ ('"' :: ':' :: ' ' :: Json.chars kv.2)) ++
      (',' :: ' ' :: Json.charsObj kvs)

end

/-- Source `json.dumps(tool_output, default=str)` as a string. -/
def Json.dumps (j : Json) : String := String.mk j.chars

structure ToolCall where
  id : String
  name : String
  argumentsStr : String
deriving DecidableEq

/-- One transcript message (the dicts handled by the loop). -/
structure LLMMessage where
  role : String
  content : String
  tool_call_id : Option String
  tool_calls : List ToolCall
deriving DecidableEq

structure LLMUsage where
  prompt_tokens : Nat
  completion_tokens : Nat
deriving DecidableEq

/-- What `llm.chat` yields per call. -/
structure LLMChatResult where
  message : LLMMessage
  usage : LLMUsage
deriving DecidableEq

/-- One entry of `used_tools_log` (`name`, `args`, with `result` filled
in after execution). -/
structure ToolLogEntry where
  name : String
  args : String
  result : Json

/-- Source `_append_tool_result`: the tool-role transcript message carrying a
serialized tool output. -/
def toolResultMessage (call_id : String) (tool_output : Json) : LLMMessage :=
  { role := "tool", content := tool_output.dumps,
    tool_call_id := some call_id, tool_calls := [] }

/-- Structured payload for a JSON-argument parse failure. -/
def invalidJsonPayload : Json :=
  Json.obj [("error", Json.str "Invalid JSON arguments for tool call.")]

/-- Structured payload for a handler-raised error. -/
def execFailedPayload (e : String) : Json :=
  Json.obj [("error", Json.str ("Tool execution failed: " ++ e))]

/-- The result payload of one tool call executed on its own: parse the
arguments, dispatch, and convert each failure into its structured error
payload. -/
def execToolCall (parse : String → Option Json)
    (dispatch : String → Json → Except String Json) (tc : ToolCall) : Json :=
  match parse tc.argumentsStr with
  | none => invalidJsonPayload
  | some args =>
    match dispatch tc.name args with
    | .error e => execFailedPayload e
    | .ok out => out

/-- The `for tc in tool_calls` body: every call appends exactly one log
entry and one tool-result transcript message; a parse failure `continue`s
to the next call, a handler error is caught and recorded. -/
def processToolCalls (parse : String → Option Json)
    (dispatch : String → Json → Except String Json) :
    List ToolCall → List LLMMessage → List ToolLogEntry →
    List LLMMessage × List ToolLogEntry
  | [], msgs, log => (msgs, log)
  | tc :: rest, msgs, log =>
    match parse tc.argumentsStr with
    | none =>
      processToolCalls parse dispatch rest
        (msgs ++ [toolResultMessage tc.id invalidJsonPayload])
        (log ++ [{ name := tc.name, args := tc.argumentsStr,
                   result := invalidJsonPayload }])
    | some args =>
      let tool_output := match dispatch tc.name args with
        | .error e => execFailedPayload e
        | .ok out => out
      processToolCalls parse dispatch rest
        (msgs ++ [toolResultMessage tc.id tool_output])
        (log ++ [{ name := tc.name, args := tc.argumentsStr,
                   result := tool_output }])

def MAX_LOOPS : Nat := 10

structure LoopState where
  messages : List LLMMessage
  used_tools_log : List ToolLogEntry
  llm_calls : Nat
  total_prompt_tokens : Nat
  total_completion_tokens : Nat

/-- The HTTPException raised by the route, with the number of LLM calls
attempted before raising and, for 429, the reset time. -/
structure ChatError where
  status : Nat
  llm_calls : Nat
  reset_time : Option Nat
deriving DecidableEq

inductive LoopExit
  | broke (st : LoopState)
  | capped (st : LoopState)

/-- Token/call accounting for one successful `llm.chat` call. -/
def recordChatResult (st : LoopState) (cr : LLMChatResult) : LoopState :=
  { st with
      llm_calls := st.llm_calls + 1,
      total_prompt_tokens := st.total_prompt_tokens + cr.usage.prompt_tokens,
      total_completion_tokens := st.total_completion_tokens + cr.usage.completion_tokens }

/-- The `while loop_count < MAX_LOOPS` loop: fuel counts the remaining
iterations.  A provider failure raises HTTP 500; a response without tool
calls breaks with the final answer appended; a response with tool calls
runs the batch and continues. -/
def toolLoop (llm : Nat → Except String LLMChatResult)
    (parse : String → Option Json)
    (dispatch : String → Json → Except String Json) :
    Nat → LoopState → Except ChatError LoopExit
  | 0, st => .ok (.capped st)
  | fuel + 1, st =>
    match llm st.llm_calls with
    | .error _ =>
      .error { status := 500, llm_calls := st.llm_calls + 1, reset_time := none }
    | .ok cr =>
      let st1 := recordChatResult st cr
      if cr.message.tool_calls.isEmpty then
        .ok (.broke { st1 with messages := st1.messages ++ [cr.message] })
      else
        let st2 := { st1 with messages := st1.messages ++ [cr.message] }
        let r := processToolCalls parse dispatch cr.message.tool_calls
          st2.messages st2.used_tools_log
        toolLoop llm parse dispatch fuel
          { st2 with messages := r.1, used_tools_log := r.2 }

/-- Source `loop_messages[-1].get("content", "")`. -/
def finalAnswerOf (msgs : List LLMMessage) : String :=
  ((msgs.getLast?).map (·.content)).getD ""

structure ChatOutcome where
  final_answer : String
  llm_calls : Nat
  total_prompt_tokens : Nat
  total_completion_tokens : Nat
  used_tools_log : List ToolLogEntry
  messages : List LLMMessage
  usage_table : List Db.TokenUsage

/-- Steps 4–5 of the route: record the turn's token usage, then extract
the final answer from the last transcript message. -/
def mkOutcome (table : List Db.TokenUsage) (daily_limit : Nat)
    (wiki_id : String) (user_id : Int) (today : Nat) (st : LoopState) :
    ChatOutcome :=
  { final_answer := finalAnswerOf st.messages,
    llm_calls := st.llm_calls,
    total_prompt_tokens := st.total_prompt_tokens,
    total_completion_tokens := st.total_completion_tokens,
    used_tools_log := st.used_tools_log,
    messages := st.messages,
    usage_table := (Db.RateLimiter.record_usage table daily_limit wiki_id
      user_id st.total_prompt_tokens st.total_completion_tokens today).1 }

/-- The `chat` route, from the usage gate to the final answer: reject
with 429 (and the reset time) before any LLM call when limited; run the
tool loop; when the iteration cap was reached, force one final generation
whose failure is swallowed (`except: pass`), falling back to the last
transcript content. -/
def chat (table : List Db.TokenUsage) (daily_limit : Nat) (wiki_id : String)
    (user_id : Int) (today : Nat)
    (llm : Nat → Except String LLMChatResult)
    (parse : String → Option Json)
    (dispatch : String → Json → Except String Json)
    (full_context : List LLMMessage) : Except ChatError ChatOutcome :=
  if (Db.RateLimiter.check_limit table daily_limit wiki_id user_id today).is_limited then
    .error { status := 429, llm_calls := 0,
             reset_time := some (Db.RateLimiter.check_limit table daily_limit
               wiki_id user_id today).reset_time }
  else
    match toolLoop llm parse dispatch MAX_LOOPS
        { messages := full_context, used_tools_log := [], llm_calls := 0,
          total_prompt_tokens := 0, total_completion_tokens := 0 } with
    | .error e => .error e
    | .ok (.broke st) => .ok (mkOutcome table daily_limit wiki_id user_id today st)
    | .ok (.capped st) =>
      match llm st.llm_calls with
      | .error _ =>
        .ok (mkOutcome table daily_limit wiki_id user_id today
          { st with llm_calls := st.llm_calls + 1 })
      | .ok cr =>
        .ok (mkOutcome table daily_limit wiki_id user_id today
          { recordChatResult st cr with messages := st.messages ++ [cr.message] })

/-- The transcript ends with a tool-result message. -/
def lastIsToolResult (msgs : List LLMMessage) : Prop :=
  ∃ cid out, msgs.getLast? = some (toolResultMessage cid out)

end Api

/-! ## Concrete instances used by counterexamples and witnesses -/

/-- Two chunks of the same page "Alpha", both in namespace 0. -/
def docAlpha1 : Embeddings.IndexedDocument :=
  { page_title := "Alpha", section_id := some "s1", text := "first chunk",
    ns := 0, last_modified := none }

def docAlpha2 : Embeddings.IndexedDocument :=
  { page_title := "Alpha", section_id := some "s2", text := "second chunk",
    ns := 0, last_modified := none }

def userW : Tools.UserContext :=
  { username := "alice", wiki_id := "wiki-a", user_id := 1,
    allowed_namespaces := [0] }

def faissSearchW (_n : Nat) :
    Except String (List (Embeddings.IndexedDocument × ℚ)) :=
  .ok [(docAlpha1, 1), (docAlpha2, 0)]

def aclAllowW (_titles : List String) : Except String (List (String × Bool)) :=
  .ok [("Alpha", true)]

def aclFailW (_titles : List String) : Except String (List (String × Bool)) :=
  .error "MediaWiki API unreachable"

/-- A response carrying a tool call and empty text content. -/
def crAllToolsW : Api.LLMChatResult :=
  { message := { role := "assistant", content := "",
                 tool_call_id := none,
                 tool_calls := [{ id := "call-1", name := "mw_vector_search",
                                  argumentsStr := "not json" }] },
    usage := { prompt_tokens := 1, completion_tokens := 1 } }

/-- A model that emits a tool call on every response, with empty text
content. -/
def llmAllToolsW (_i : Nat) : Except String Api.LLMChatResult :=
  .ok crAllToolsW

/-- Same model, but the 11th call (the forced final generation) fails. -/
def llmAllToolsFinalFailW (i : Nat) : Except String Api.LLMChatResult :=
  if i < Api.MAX_LOOPS then llmAllToolsW i else .error "provider timeout"

def parseNoneW (_s : String) : Option Api.Json := none

def dispatchErrW (_name : String) (_args : Api.Json) :
    Except String Api.Json := .error "boom"

/-- A user whose JWT carries no allowed namespaces. -/
def userDenyW : Tools.UserContext :=
  { username := "bob", wiki_id := "wiki-a", user_id := 2,
    allowed_namespaces := [] }

/-- A usage table where user 1 on wiki-a has exhausted a 100-token quota
on day 5. -/
def usageTableFullW : List Db.TokenUsage :=
  [{ wiki_id := "wiki-a", user_id := 1, usage_date := 5, prompt_tokens := 60,
     completion_tokens := 40, total_tokens := 100, request_count := 3 }]

/-! # Theorems -/

theorem mem_searchSelected_wiki_id {db : List Db.Embedding} {wiki_id : String}
    {dist : List ℚ → List ℚ → ℚ} {q : List ℚ} {k : Nat}
    {nsf : Option (List Int)} {r : Db.Embedding}
    (h : r ∈ Db.VectorStore.searchSelected db wiki_id dist q k nsf) :
    r.wiki_id = wiki_id := by
  unfold Db.VectorStore.searchSelected at h
  have h1 := List.mem_of_mem_take h
  have h2 : r ∈ db.filter (Db.VectorStore.searchCond wiki_id nsf) :=
    ((List.mergeSort_perm _ _).mem_iff).mp h1
  have h3 := List.of_mem_filter h2
  unfold Db.VectorStore.searchCond at h3
  have h4 := (Bool.and_eq_true _ _).mp h3
  exact beq_iff_eq.mp h4.1

theorem mem_newRecords_wiki_id {wiki_id : String} {titles : List String}
    {sections : List (Option String)} {nss : List Int} {embs : List (List ℚ)}
    {r : Db.Embedding}
    (h : r ∈ Db.VectorStore.newRecords wiki_id titles sections nss embs) :
    r.wiki_id = wiki_id := by
  unfold Db.VectorStore.newRecords at h
  obtain ⟨p, _, hp⟩ := List.mem_map.mp h
  rw [← hp]

/-- C1: Cross-tenant isolation — a record added under tenant `t1` is never
among the rows selected by a vector search issued under a different tenant
`t2`: the store keys every SELECT on the caller's tenant id, so every
selected row carries `wiki_id = t2`, while every row inserted by
`add_documents` under `t1` carries `wiki_id = t1`. -/
theorem c1_cross_tenant_isolation
    (db : List Db.Embedding) (t1 t2 : String) (titles : List String)
    (sections : List (Option String)) (nss : List Int) (embs : List (List ℚ))
    (dist : List ℚ → List ℚ → ℚ) (q : List ℚ) (k : Nat)
    (nsf : Option (List Int)) (r : Db.Embedding)
    (hr : r ∈ Db.VectorStore.newRecords t1 titles sections nss embs)
    (hne : t1 ≠ t2) :
    r ∉ Db.VectorStore.searchSelected
        (Db.VectorStore.add_documents db t1 titles sections nss embs).1
        t2 dist q k nsf := by
  intro hmem
  exact hne ((mem_newRecords_wiki_id hr).symm.trans
    (mem_searchSelected_wiki_id hmem))

/-- Witness for C1 at concrete tenants "wiki-a" ≠ "wiki-b". -/
theorem c1_cross_tenant_isolation_witness :
    ({ wiki_id := "wiki-a", page_title := "Alpha", section_id := none,
       ns := 0, embedding := [1] } : Db.Embedding) ∉
      Db.VectorStore.searchSelected
        (Db.VectorStore.add_documents [] "wiki-a" ["Alpha"] [none] [0] [[1]]).1
        "wiki-b" (fun _ _ => 0) [1] 5 none :=
  c1_cross_tenant_isolation [] "wiki-a" "wiki-b" ["Alpha"] [none] [0] [[1]]
    (fun _ _ => 0) [1] 5 none _ (by decide) (by decide)

theorem add_documents_spec (norm : List ℚ → List ℚ) (st : Embeddings.FaissState)
    (docs : List Embeddings.IndexedDocument) (embs : List (List ℚ)) :
    st.next_id ≤ (Embeddings.FaissIndex.add_documents norm st docs embs).1.next_id ∧
    ((Embeddings.FaissIndex.add_documents norm st docs embs).2.2.map Prod.fst).Pairwise (· < ·) ∧
    ∀ i ∈ (Embeddings.FaissIndex.add_documents norm st docs embs).2.2.map Prod.fst,
      st.next_id ≤ i ∧ i < (Embeddings.FaissIndex.add_documents norm st docs embs).1.next_id := by
  unfold Embeddings.FaissIndex.add_documents
  by_cases hd : docs.isEmpty
  · simp [hd]
  · simp only [hd, Bool.false_eq_true, if_false]
    cases hv : Embeddings.FaissIndex.validateEmbeddings embs docs with
    | some e => simp
    | none =>
      simp only
      cases ha : Embeddings.FaissNative.add_with_ids
          (match st.index with
           | none => { dim := (embs.headD []).length, entries := [] }
           | some i => i)
          (embs.map norm) (List.range' st.next_id docs.length) with
      | none => simp [ha]
      | some idx1 =>
        simp only [ha]
        have hmap : ((List.range' st.next_id docs.length).zip docs).map Prod.fst
            = List.range' st.next_id docs.length := by
          apply List.map_fst_zip
          simp [List.length_range']
        refine ⟨Nat.le_add_right _ _, ?_, ?_⟩
        · rw [hmap]
          exact List.pairwise_lt_range' _ _
        · intro i hi
          rw [hmap, List.mem_range'_1] at hi
          exact ⟨hi.1, hi.2⟩

theorem delete_page_next_id (st : Embeddings.FaissState) (t : String) :
    (Embeddings.FaissIndex.delete_page st t).1.next_id = st.next_id := by
  unfold Embeddings.FaissIndex.delete_page
  cases st.index with
  | none => rfl
  | some idx =>
    simp only
    by_cases h : ((st.doc_map.filter fun p => p.2.page_title == t).map (·.1)).isEmpty <;>
      simp [h]

theorem runOps_trace (norm : List ℚ → List ℚ) (ops : List Embeddings.Op) :
    ∀ st : Embeddings.FaissState,
    ((Embeddings.runOps norm st ops).2.map Prod.fst).Pairwise (· < ·) ∧
    (∀ i ∈ (Embeddings.runOps norm st ops).2.map Prod.fst, st.next_id ≤ i) ∧
    st.next_id ≤ (Embeddings.runOps norm st ops).1.next_id := by
  induction ops with
  | nil => intro st; simp [Embeddings.runOps]
  | cons op rest ih =>
    intro st
    cases op with
    | add docs embs =>
      have hspec := add_documents_spec norm st docs embs
      obtain ⟨hmono, hpw, hbounds⟩ := hspec
      have ihr := ih (Embeddings.FaissIndex.add_documents norm st docs embs).1
      obtain ⟨ihpw, ihlb, ihmono⟩ := ihr
      simp only [Embeddings.runOps, Embeddings.applyOp, List.map_append]
      refine ⟨?_, ?_, ?_⟩
      · rw [List.pairwise_append]
        refine ⟨hpw, ihpw, ?_⟩
        intro a ha b hb
        exact Nat.lt_of_lt_of_le (hbounds a ha).2 (ihlb b hb)
      · intro i hi
        rcases List.mem_append.mp hi with h | h
        · exact (hbounds i h).1
        · exact Nat.le_trans hmono (ihlb i h)
      · exact Nat.le_trans hmono ihmono
    | del t =>
      have ihr := ih (Embeddings.FaissIndex.delete_page st t).1
      obtain ⟨ihpw, ihlb, ihmono⟩ := ihr
      have hnid := delete_page_next_id st t
      simp only [Embeddings.runOps, Embeddings.applyOp, List.nil_append]
      exact ⟨ihpw, fun i hi => hnid ▸ ihlb i hi, hnid ▸ ihmono⟩

/-- C8: Identifier freshness — over every interleaving of `add_documents`
and `delete_page` operations starting from the empty store, the ids
assigned to records form a strictly increasing sequence (monotonically
increasing from the store's counter, which deletion never rewinds), hence
no id is ever assigned to two different records. -/
theorem c8_id_freshness (norm : List ℚ → List ℚ) (ops : List Embeddings.Op) :
    (((Embeddings.runOps norm Embeddings.initialFaissState ops).2.map
        Prod.fst).Pairwise (· < ·)) ∧
    ((Embeddings.runOps norm Embeddings.initialFaissState ops).2.map
        Prod.fst).Nodup := by
  have h := (runOps_trace norm ops Embeddings.initialFaissState).1
  exact ⟨h, h.imp Nat.ne_of_lt⟩

/-- C10: `add_documents` with an empty document list returns immediately:
no error, no assignments, and the state (native index, doc map, id
counter) is exactly unchanged — even when the embeddings argument is
non-empty or malformed, since `_validate_embeddings` is never reached. -/
theorem c10_add_documents_empty_docs (norm : List ℚ → List ℚ)
    (st : Embeddings.FaissState) (embeddings : List (List ℚ)) :
    Embeddings.FaissIndex.add_documents norm st [] embeddings
      = (st, none, []) := rfl

/-- C9: at the store layer `FaissIndex.load` does treat a
present-but-corrupt index file as fatal (it raises
`FaissPersistenceError`), and tolerates an absent file as a fresh start;
but the registry's `get_tenant_index` wraps the load in a blanket
`except Exception: pass` (commented "No existing index, start fresh" —
a branch that the absent-file case never reaches, since `load` returns
normally then), so on first access to a tenant whose persisted index file
is corrupt it silently registers and returns a fresh empty store instead
of failing. -/
theorem c9_corrupt_load_swallowed :
    (Embeddings.FaissIndex.load Embeddings.initialFaissState
        ⟨Embeddings.FileRead.corrupt, Embeddings.FileRead.corrupt⟩
      = (Embeddings.initialFaissState,
         some Embeddings.FaissPersistenceError.readIndexFailed)) ∧
    (Embeddings.FaissIndex.load Embeddings.initialFaissState
        ⟨Embeddings.FileRead.absent, Embeddings.FileRead.absent⟩
      = (Embeddings.initialFaissState, none)) ∧
    (Embeddings.get_tenant_index []
        ⟨Embeddings.FileRead.corrupt, Embeddings.FileRead.corrupt⟩ "wiki-a"
      = Except.ok ([("wiki-a", Embeddings.initialFaissState)],
                   Embeddings.initialFaissState)) := by
  refine ⟨rfl, rfl, ?_⟩
  rfl

/-- C2: If the batch ACL check raises for every batch, the pipeline fails
closed: provided the faiss search itself succeeded, the result is the
empty list — not a propagated exception and not an unfiltered result. -/
theorem c2_acl_failure_fail_closed
    (user : Tools.UserContext) (embeddings : List (List ℚ))
    (faissSearch : Nat → Except String (List (Embeddings.IndexedDocument × ℚ)))
    (check_read_access : List String → Except String (List (String × Bool)))
    (k : Nat) (raw : List (Embeddings.IndexedDocument × ℚ))
    (hok : faissSearch (k * 3) = Except.ok raw)
    (herr : ∀ ts, ∃ e, check_read_access ts = Except.error e) :
    Tools.tool_vector_search user embeddings faissSearch check_read_access k
      = Except.ok [] := by
  unfold Tools.tool_vector_search
  by_cases he : embeddings.isEmpty
  · rw [if_pos he]
  · rw [if_neg he]
    split
    · next e heq => rw [hok] at heq; exact Except.noConfusion heq
    · next raw2 heq =>
      rw [hok] at heq
      injection heq with h2
      subst h2
      by_cases hraw : raw.isEmpty
      · rw [if_pos hraw]
      · rw [if_neg hraw]
        by_cases hns : (Tools.filter_by_namespace raw user.allowed_namespaces).isEmpty
        · rw [if_pos hns]
        · rw [if_neg hns]
          split
          · rfl
          · next access_map heq2 =>
            by_cases hT : (((Tools.filter_by_namespace raw user.allowed_namespaces).take
                (k * 2)).map fun p => p.1.page_title).isEmpty
            · have hcand : (Tools.filter_by_namespace raw
                  user.allowed_namespaces).take (k * 2) = [] :=
                List.map_eq_nil_iff.mp (List.isEmpty_iff.mp hT)
              simp only [hcand, Tools.resultLoop]
            · unfold Tools.validate_page_access at heq2
              rw [if_neg hT] at heq2
              obtain ⟨e, he2⟩ := herr _
              rw [he2] at heq2
              exact Except.noConfusion heq2

/-- Witness for C2: a concrete failing ACL client yields `ok []`. -/
theorem c2_acl_failure_fail_closed_witness :
    Tools.tool_vector_search userW [[1]] faissSearchW aclFailW 5
      = Except.ok [] :=
  c2_acl_failure_fail_closed userW [[1]] faissSearchW aclFailW 5
    [(docAlpha1, 1), (docAlpha2, 0)] rfl
    (fun _ => ⟨"MediaWiki API unreachable", rfl⟩)

/-- C7: an empty allowed-namespace list is deny-all — whatever the store
returned, the pipeline yields `[]`; a non-empty allowed list filters a
candidate set to exactly the candidates whose namespace is allowed. -/
theorem c7_namespace_prefilter
    (user : Tools.UserContext) (embeddings : List (List ℚ))
    (faissSearch : Nat → Except String (List (Embeddings.IndexedDocument × ℚ)))
    (check_read_access : List String → Except String (List (String × Bool)))
    (k : Nat) (raw : List (Embeddings.IndexedDocument × ℚ))
    (hok : faissSearch (k * 3) = Except.ok raw) :
    (user.allowed_namespaces = [] →
      Tools.tool_vector_search user embeddings faissSearch check_read_access k
        = Except.ok []) ∧
    ∀ (allowed : List Int) (results : List (Embeddings.IndexedDocument × ℚ))
      (p : Embeddings.IndexedDocument × ℚ), allowed ≠ [] →
      (p ∈ Tools.filter_by_namespace results allowed ↔
        p ∈ results ∧ p.1.ns ∈ allowed) := by
  constructor
  · intro hempty
    unfold Tools.tool_vector_search
    by_cases he : embeddings.isEmpty
    · rw [if_pos he]
    · rw [if_neg he]
      split
      · next e heq => rw [hok] at heq; exact Except.noConfusion heq
      · next raw2 heq =>
        rw [hok] at heq
        injection heq with h2
        subst h2
        by_cases hraw : raw.isEmpty
        · rw [if_pos hraw]
        · rw [if_neg hraw]
          have hfe : Tools.filter_by_namespace raw user.allowed_namespaces = [] := by
            unfold Tools.filter_by_namespace
            rw [hempty]
            rfl
          rw [if_pos (by rw [hfe]; rfl)]
  · intro allowed results p hne
    unfold Tools.filter_by_namespace
    rw [if_neg (by simpa using hne)]
    simp [List.mem_filter]

/-- Witness for C7: the deny-all user gets `ok []` from a store holding
two namespace-0 chunks. -/
theorem c7_namespace_prefilter_witness :
    Tools.tool_vector_search userDenyW [[1]] faissSearchW aclAllowW 5
      = Except.ok [] :=
  (c7_namespace_prefilter userDenyW [[1]] faissSearchW aclAllowW 5
    [(docAlpha1, 1), (docAlpha2, 0)] rfl).1 rfl

/-- C3 counterexample: the result loop performs no per-title
deduplication — with two accessible chunks of the page "Alpha" ranked
first and second and `k = 2`, the pipeline returns two results with the
same title, refuting "never returns two results with the same page
title". -/
theorem c3_duplicate_titles_counterexample :
    (Tools.tool_vector_search userW [[1]] faissSearchW aclAllowW 2).map
        (fun l => l.map Tools.ToolSearchResult.title)
      = Except.ok ["Alpha", "Alpha"] ∧
    ¬ (["Alpha", "Alpha"] : List String).Nodup := by
  exact ⟨rfl, by decide⟩

theorem resultLoop_length_le (access_map : List (String × Bool)) (k : Nat) :
    ∀ (cands : List (Embeddings.IndexedDocument × ℚ))
      (acc res : List Tools.ToolSearchResult),
      acc.length < k →
      Tools.resultLoop access_map k cands acc = Except.ok res →
      res.length ≤ k := by
  intro cands
  induction cands with
  | nil =>
    intro acc res hlt h
    unfold Tools.resultLoop at h
    injection h with h2
    rw [← h2]
    exact Nat.le_of_lt hlt
  | cons p rest ih =>
    intro acc res hlt h
    obtain ⟨doc, score⟩ := p
    unfold Tools.resultLoop at h
    by_cases hacc : Tools.accessGet access_map doc.page_title
    · rw [if_neg (by simp [hacc])] at h
      cases hmk : Tools.mkToolSearchResult doc score with
      | none => rw [hmk] at h; exact Except.noConfusion h
      | some r =>
        rw [hmk] at h
        simp only at h
        by_cases hk : k ≤ (acc ++ [r]).length
        · rw [if_pos hk] at h
          injection h with h2
          rw [← h2]
          simpa using Nat.succ_le_of_lt hlt
        · rw [if_neg hk] at h
          exact ih (acc ++ [r]) res (Nat.lt_of_not_le hk) h
    · rw [if_pos (by simp [hacc])] at h
      exact ih acc res hlt h

/-- C3 (amended): the pipeline never returns more than `k` results — it
walks the access-validated candidates in rank order and stops once `k`
results are collected — but the same page title may appear once per
matching chunk, since no per-title deduplication is performed. -/
theorem c3_amended_at_most_k
    (user : Tools.UserContext) (embeddings : List (List ℚ))
    (faissSearch : Nat → Except String (List (Embeddings.IndexedDocument × ℚ)))
    (check_read_access : List String → Except String (List (String × Bool)))
    (k : Nat) (res : List Tools.ToolSearchResult)
    (h : Tools.tool_vector_search user embeddings faissSearch check_read_access k
      = Except.ok res) :
    res.length ≤ k := by
  unfold Tools.tool_vector_search at h
  by_cases he : embeddings.isEmpty
  · rw [if_pos he] at h
    injection h with h2
    rw [← h2]; exact Nat.zero_le k
  · rw [if_neg he] at h
    split at h
    · exact Except.noConfusion h
    · next raw heq =>
      by_cases hraw : raw.isEmpty
      · rw [if_pos hraw] at h
        injection h with h2
        rw [← h2]; exact Nat.zero_le k
      · rw [if_neg hraw] at h
        by_cases hns : (Tools.filter_by_namespace raw user.allowed_namespaces).isEmpty
        · rw [if_pos hns] at h
          injection h with h2
          rw [← h2]; exact Nat.zero_le k
        · rw [if_neg hns] at h
          split at h
          · injection h with h2
            rw [← h2]; exact Nat.zero_le k
          · next access_map heq2 =>
            rcases Nat.eq_zero_or_pos k with hk | hk
            · subst hk
              simp only [Nat.zero_mul, List.take_zero] at h
              unfold Tools.resultLoop at h
              injection h with h2
              rw [← h2]; exact Nat.le_refl 0
            · exact resultLoop_length_le access_map k _ [] res (by simpa using hk) h

/-- Witness for C3 (amended) at the duplicate-title input: two results
for `k = 2`. -/
theorem c3_amended_at_most_k_witness :
    ([{ title := "Alpha", section_id := some "s1", score := 1,
        text := some (String.mk ("first chunk".toList.take 400)) },
      { title := "Alpha", section_id := some "s2", score := 0,
        text := some (String.mk ("second chunk".toList.take 400)) }] :
      List Tools.ToolSearchResult).length ≤ 2 :=
  c3_amended_at_most_k userW [[1]] faissSearchW aclAllowW 2 _ rfl

theorem processToolCalls_eq (parse : String → Option Api.Json)
    (dispatch : String → Api.Json → Except String Api.Json)
    (calls : List Api.ToolCall) :
    ∀ (msgs : List Api.LLMMessage) (log : List Api.ToolLogEntry),
    Api.processToolCalls parse dispatch calls msgs log
      = (msgs ++ calls.map (fun tc =>
            Api.toolResultMessage tc.id (Api.execToolCall parse dispatch tc)),
         log ++ calls.map (fun tc =>
            { name := tc.name, args := tc.argumentsStr,
              result := Api.execToolCall parse dispatch tc })) := by
  induction calls with
  | nil => intro msgs log; simp [Api.processToolCalls]
  | cons tc rest ih =>
    intro msgs log
    cases hp : parse tc.argumentsStr with
    | none =>
      simp only [Api.processToolCalls, hp, ih, Api.execToolCall, List.map_cons]
      simp
    | some args =>
      cases hd : dispatch tc.name args with
      | error e =>
        simp only [Api.processToolCalls, hp, hd, ih, Api.execToolCall, List.map_cons]
        simp
      | ok out =>
        simp only [Api.processToolCalls, hp, hd, ih, Api.execToolCall, List.map_cons]
        simp

/-- C6: within one batch of tool calls, every call is executed
independently — the batch loop appends, per call and in call order,
exactly one transcript message and one log entry whose payload is that
call's own outcome, with a JSON-argument parse failure and a
handler-raised error converted into the structured error payloads; no
failure removes or blocks a sibling's entry. -/
theorem c6_tool_call_independence (parse : String → Option Api.Json)
    (dispatch : String → Api.Json → Except String Api.Json)
    (calls : List Api.ToolCall) (msgs : List Api.LLMMessage)
    (log : List Api.ToolLogEntry) :
    (Api.processToolCalls parse dispatch calls msgs log
      = (msgs ++ calls.map (fun tc =>
            Api.toolResultMessage tc.id (Api.execToolCall parse dispatch tc)),
         log ++ calls.map (fun tc =>
            { name := tc.name, args := tc.argumentsStr,
              result := Api.execToolCall parse dispatch tc }))) ∧
    (∀ tc, parse tc.argumentsStr = none →
      Api.execToolCall parse dispatch tc = Api.invalidJsonPayload) ∧
    (∀ tc args e, parse tc.argumentsStr = some args →
      dispatch tc.name args = Except.error e →
      Api.execToolCall parse dispatch tc = Api.execFailedPayload e) := by
  refine ⟨processToolCalls_eq parse dispatch calls msgs log, ?_, ?_⟩
  · intro tc hp
    simp only [Api.execToolCall, hp]
  · intro tc args e hp hd
    simp only [Api.execToolCall, hp, hd]

/-- Witness for C6: a batch of two calls — one with unparsable arguments,
one whose handler raises — still yields one error-payload entry per call,
in order. -/
theorem c6_tool_call_independence_witness :
    Api.processToolCalls parseNoneW dispatchErrW
      [{ id := "c1", name := "t1", argumentsStr := "bad" },
       { id := "c2", name := "t2", argumentsStr := "worse" }] [] []
      = ([Api.toolResultMessage "c1"
            (Api.execToolCall parseNoneW dispatchErrW
              { id := "c1", name := "t1", argumentsStr := "bad" }),
          Api.toolResultMessage "c2"
            (Api.execToolCall parseNoneW dispatchErrW
              { id := "c2", name := "t2", argumentsStr := "worse" })],
         [{ name := "t1", args := "bad",
            result := Api.execToolCall parseNoneW dispatchErrW
              { id := "c1", name := "t1", argumentsStr := "bad" } },
          { name := "t2", args := "worse",
            result := Api.execToolCall parseNoneW dispatchErrW
              { id := "c2", name := "t2", argumentsStr := "worse" } }]) :=
  (c6_tool_call_independence parseNoneW dispatchErrW
    [{ id := "c1", name := "t1", argumentsStr := "bad" },
     { id := "c2", name := "t2", argumentsStr := "worse" }] [] []).1

theorem record_usage_rows (table : List Db.TokenUsage) (daily_limit : Nat)
    (wiki_id : String) (user_id : Int) (pt ct today : Nat) :
    ∀ r ∈ (Db.RateLimiter.record_usage table daily_limit wiki_id user_id
        pt ct today).1,
      r.usage_date = today ∨
      ∃ r0 ∈ table, r.wiki_id = r0.wiki_id ∧ r.user_id = r0.user_id ∧
        r.usage_date = r0.usage_date := by
  intro r hr
  simp only [Db.RateLimiter.record_usage] at hr
  by_cases hany : table.any (Db.usageRowMatches wiki_id user_id today)
  · rw [if_pos hany] at hr
    obtain ⟨r0, hr0, hre⟩ := List.mem_map.mp hr
    by_cases hm : Db.usageRowMatches wiki_id user_id today r0
    · rw [if_pos hm] at hre
      right
      exact ⟨r0, hr0, by rw [← hre], by rw [← hre], by rw [← hre]⟩
    · rw [if_neg hm] at hre
      right
      exact ⟨r0, hr0, by rw [← hre], by rw [← hre], by rw [← hre]⟩
  · rw [if_neg hany] at hr
    rcases List.mem_append.mp hr with h | h
    · right
      exact ⟨r, h, rfl, rfl, rfl⟩
    · left
      rw [List.mem_singleton.mp h]

/-- C4: the usage gate — `check_limit` reports `is_limited` exactly when
the tokens used today reach or exceed the daily limit and carries the
next-UTC-midnight reset time; a limited (tenant, user) has the turn
rejected with HTTP 429 and that reset time before any LLM call is made
(zero calls attempted); and after recording any usage today, a
`check_limit` on the next UTC day reads zero tokens used, provided no row
for that future day pre-existed. -/
theorem c4_usage_gate
    (table : List Db.TokenUsage) (daily_limit : Nat) (wiki_id : String)
    (user_id : Int) (today : Nat)
    (llm : Nat → Except String Api.LLMChatResult)
    (parse : String → Option Api.Json)
    (dispatch : String → Api.Json → Except String Api.Json)
    (full_context : List Api.LLMMessage) (pt ct : Nat) :
    ((Db.RateLimiter.check_limit table daily_limit wiki_id user_id today).is_limited
        = true ↔
      daily_limit ≤
        (Db.RateLimiter.check_limit table daily_limit wiki_id user_id today).tokens_used) ∧
    ((Db.RateLimiter.check_limit table daily_limit wiki_id user_id today).reset_time
        = today + 1) ∧
    ((Db.RateLimiter.check_limit table daily_limit wiki_id user_id today).is_limited
        = true →
      Api.chat table daily_limit wiki_id user_id today llm parse dispatch full_context
        = Except.error { status := 429, llm_calls := 0,
                         reset_time := some (today + 1) }) ∧
    ((∀ r ∈ table, Db.usageRowMatches wiki_id user_id (today + 1) r = false) →
      (Db.RateLimiter.check_limit
          (Db.RateLimiter.record_usage table daily_limit wiki_id user_id
            pt ct today).1
          daily_limit wiki_id user_id (today + 1)).tokens_used = 0) := by
  refine ⟨?_, rfl, ?_, ?_⟩
  · simp [Db.RateLimiter.check_limit]
  · intro h
    unfold Api.chat
    rw [if_pos h]
    rfl
  · intro hfresh
    have hnone : (Db.RateLimiter.record_usage table daily_limit wiki_id user_id
        pt ct today).1.find? (Db.usageRowMatches wiki_id user_id (today + 1))
        = none := by
      apply List.find?_eq_none.mpr
      intro r hr
      rcases record_usage_rows table daily_limit wiki_id user_id pt ct today r hr with
        hd | ⟨r0, hr0, hw, hu, hdt⟩
      · unfold Db.usageRowMatches
        simp [hd]
      · have := hfresh r0 hr0
        unfold Db.usageRowMatches at this ⊢
        rw [hw, hu, hdt]
        exact fun hc => absurd (this ▸ hc) (by simp [this])
    simp [Db.RateLimiter.check_limit, hnone]

/-- Witness for C4: the exhausted table rejects with 429 carrying the
day-6 reset, and the day-6 read after a day-5 record sees zero tokens. -/
theorem c4_usage_gate_witness :
    (Api.chat usageTableFullW 100 "wiki-a" 1 5 llmAllToolsW parseNoneW
        dispatchErrW []
      = Except.error { status := 429, llm_calls := 0, reset_time := some 6 }) ∧
    ((Db.RateLimiter.check_limit
        (Db.RateLimiter.record_usage usageTableFullW 100 "wiki-a" 1 7 8 5).1
        100 "wiki-a" 1 6).tokens_used = 0) :=
  ⟨(c4_usage_gate usageTableFullW 100 "wiki-a" 1 5 llmAllToolsW parseNoneW
      dispatchErrW [] 7 8).2.2.1 (by decide),
   (c4_usage_gate usageTableFullW 100 "wiki-a" 1 5 llmAllToolsW parseNoneW
      dispatchErrW [] 7 8).2.2.2 (by decide)⟩

theorem natReprChars_ne_nil (n : Nat) : Api.natReprChars n ≠ [] := by
  unfold Api.natReprChars
  simp

theorem jsonChars_ne_nil (j : Api.Json) : Api.Json.chars j ≠ [] := by
  cases j with
  | null => simp only [Api.Json.chars]; decide
  | bool b => cases b <;> (simp only [Api.Json.chars]; decide)
  | num n =>
    cases n with
    | ofNat m =>
      simp only [Api.Json.chars, Api.intReprChars]
      exact natReprChars_ne_nil m
    | negSucc m => simp [Api.Json.chars, Api.intReprChars]
  | str s => simp [Api.Json.chars]
  | arr elements => simp [Api.Json.chars]
  | obj fields => simp [Api.Json.chars]

theorem dumps_ne_empty (j : Api.Json) : Api.Json.dumps j ≠ "" := fun h =>
  jsonChars_ne_nil j (congrArg String.data h)

theorem lastIsToolResult_processToolCalls (parse : String → Option Api.Json)
    (dispatch : String → Api.Json → Except String Api.Json)
    (calls : List Api.ToolCall) (msgs : List Api.LLMMessage)
    (log : List Api.ToolLogEntry) (hne : calls ≠ []) :
    Api.lastIsToolResult (Api.processToolCalls parse dispatch calls msgs log).1 := by
  have h1 : (Api.processToolCalls parse dispatch calls msgs log).1
      = msgs ++ calls.map (fun tc =>
          Api.toolResultMessage tc.id (Api.execToolCall parse dispatch tc)) := by
    rw [processToolCalls_eq]
  rw [h1]
  cases hl : calls.getLast? with
  | none => exact absurd (List.getLast?_eq_none_iff.mp hl) hne
  | some tc =>
    refine ⟨tc.id, Api.execToolCall parse dispatch tc, ?_⟩
    rw [List.getLast?_append_of_ne_nil _ (by simpa using hne),
        List.getLast?_map, hl]
    rfl

theorem toolLoop_always_tools (llm : Nat → Except String Api.LLMChatResult)
    (parse : String → Option Api.Json)
    (dispatch : String → Api.Json → Except String Api.Json)
    (h : ∀ i < Api.MAX_LOOPS, ∃ cr, llm i = Except.ok cr ∧
      cr.message.tool_calls ≠ []) :
    ∀ (fuel : Nat) (st : Api.LoopState), st.llm_calls + fuel = Api.MAX_LOOPS →
    ∃ st1, Api.toolLoop llm parse dispatch fuel st
        = Except.ok (Api.LoopExit.capped st1) ∧
      st1.llm_calls = Api.MAX_LOOPS ∧
      ((0 < fuel ∨ Api.lastIsToolResult st.messages) →
        Api.lastIsToolResult st1.messages) := by
  intro fuel
  induction fuel with
  | zero =>
    intro st hst
    refine ⟨st, rfl, by simpa using hst, ?_⟩
    rintro (h0 | hp)
    · exact absurd h0 (Nat.lt_irrefl 0)
    · exact hp
  | succ fuel ih =>
    intro st hst
    obtain ⟨cr, hcr, htc⟩ := h st.llm_calls (by omega)
    have hie : cr.message.tool_calls.isEmpty = false := by
      cases hc : cr.message.tool_calls with
      | nil => exact absurd hc htc
      | cons a l => rfl
    simp only [Api.toolLoop, hcr, hie, Bool.false_eq_true, if_false]
    obtain ⟨st1, heq, hc1, hl1⟩ := ih
      { messages := (Api.processToolCalls parse dispatch cr.message.tool_calls
          ((Api.recordChatResult st cr).messages ++ [cr.message])
          (Api.recordChatResult st cr).used_tools_log).1,
        used_tools_log := (Api.processToolCalls parse dispatch cr.message.tool_calls
          ((Api.recordChatResult st cr).messages ++ [cr.message])
          (Api.recordChatResult st cr).used_tools_log).2,
        llm_calls := (Api.recordChatResult st cr).llm_calls,
        total_prompt_tokens := (Api.recordChatResult st cr).total_prompt_tokens,
        total_completion_tokens := (Api.recordChatResult st cr).total_completion_tokens }
      (by simp [Api.recordChatResult]; omega)
    refine ⟨st1, ?_, hc1, fun _ => hl1 (Or.inr ?_)⟩
    · exact heq
    · exact lastIsToolResult_processToolCalls parse dispatch
        cr.message.tool_calls _ _ htc

/-- C5 (amended): for a model that emits tool calls on every loop
response, the turn performs at most `MAX_LOOPS + 1` LLM calls (the loop
iterations plus the one forced final generation) and terminates
successfully; the final answer is the content of the last transcript
message — non-empty whenever the forced final call fails, because the
fallback is the JSON-serialized tool result appended last, but equal to
the forced response's content (possibly empty) when that call succeeds. -/
theorem c5_amended_bounded_loop
    (table : List Db.TokenUsage) (daily_limit : Nat) (wiki_id : String)
    (user_id : Int) (today : Nat)
    (llm : Nat → Except String Api.LLMChatResult)
    (parse : String → Option Api.Json)
    (dispatch : String → Api.Json → Except String Api.Json)
    (full_context : List Api.LLMMessage)
    (hgate : (Db.RateLimiter.check_limit table daily_limit wiki_id user_id
      today).is_limited = false)
    (h : ∀ i < Api.MAX_LOOPS, ∃ cr, llm i = Except.ok cr ∧
      cr.message.tool_calls ≠ []) :
    ∃ out, Api.chat table daily_limit wiki_id user_id today llm parse dispatch
        full_context = Except.ok out ∧
      out.llm_calls ≤ Api.MAX_LOOPS + 1 ∧
      (∀ e, llm Api.MAX_LOOPS = Except.error e → out.final_answer ≠ "") ∧
      (∀ cr, llm Api.MAX_LOOPS = Except.ok cr →
        out.final_answer = cr.message.content) := by
  obtain ⟨st1, hloop, hcalls, hlast⟩ := toolLoop_always_tools llm parse dispatch h
    Api.MAX_LOOPS
    { messages := full_context, used_tools_log := [], llm_calls := 0,
      total_prompt_tokens := 0, total_completion_tokens := 0 }
    (by simp)
  have hlast1 : Api.lastIsToolResult st1.messages :=
    hlast (Or.inl (by decide))
  unfold Api.chat
  rw [if_neg (by simp [hgate])]
  simp only [hloop]
  cases hfin : llm st1.llm_calls with
  | error e1 =>
    rw [hcalls] at hfin
    refine ⟨_, rfl, ?_, ?_, ?_⟩
    · simp only [Api.mkOutcome]
      omega
    · intro e he
      obtain ⟨cid, out0, hgl⟩ := hlast1
      simp only [Api.mkOutcome, Api.finalAnswerOf, hgl, Option.map_some,
        Option.getD_some, Api.toolResultMessage]
      exact dumps_ne_empty out0
    · intro cr hcr
      rw [hcr] at hfin
      exact Except.noConfusion hfin
  | ok cr1 =>
    rw [hcalls] at hfin
    refine ⟨_, rfl, ?_, ?_, ?_⟩
    · simp only [Api.mkOutcome, Api.recordChatResult]
      omega
    · intro e he
      rw [he] at hfin
      exact Except.noConfusion hfin
    · intro cr hcr
      rw [hcr] at hfin
      injection hfin with h2
      subst h2
      simp only [Api.mkOutcome, Api.finalAnswerOf]
      rw [List.getLast?_append_of_ne_nil _ (by simp)]
      rfl

/-- Witness for C5 (amended): a model that always calls tools and whose
11th (forced) call fails; the turn still succeeds within 11 calls and
falls back to the last tool-result content. -/
theorem c5_amended_bounded_loop_witness :
    ∃ out, Api.chat [] 100 "wiki-a" 1 0 llmAllToolsFinalFailW parseNoneW
        dispatchErrW [] = Except.ok out ∧
      out.llm_calls ≤ Api.MAX_LOOPS + 1 ∧
      (∀ e, llmAllToolsFinalFailW Api.MAX_LOOPS = Except.error e →
        out.final_answer ≠ "") ∧
      (∀ cr, llmAllToolsFinalFailW Api.MAX_LOOPS = Except.ok cr →
        out.final_answer = cr.message.content) :=
  c5_amended_bounded_loop [] 100 "wiki-a" 1 0 llmAllToolsFinalFailW parseNoneW
    dispatchErrW [] (by decide)
    (fun i hi => ⟨crAllToolsW,
      by unfold llmAllToolsFinalFailW; rw [if_pos hi]; rfl,
      by decide⟩)

/-- C5 counterexample: the claim additionally asserts a *non-empty* final
answer; but when the forced final generation succeeds with empty content
(a model that always emits tool calls and empty text), the final answer
is the empty string — after exactly `MAX_LOOPS + 1 = 11` LLM calls. -/
theorem c5_empty_answer_counterexample :
    (Api.chat [] 100 "wiki-a" 1 0 llmAllToolsW parseNoneW dispatchErrW []).map
        Api.ChatOutcome.final_answer = Except.ok "" ∧
    (Api.chat [] 100 "wiki-a" 1 0 llmAllToolsW parseNoneW dispatchErrW []).map
        Api.ChatOutcome.llm_calls = Except.ok (Api.MAX_LOOPS + 1) :=
  ⟨rfl, rfl⟩
